import Mathlib

/-!
Verification of the Chat-App TCP chat server.

This file is a shallow embedding of the server (`Server.go`, embedded in the
repository's README): the lobby coordinator, chat rooms, clients and the
command dispatcher.  The concurrent program is modelled as a pure state
machine: the coordinator processes one event at a time, so every lobby
operation becomes a pure function `LobbyState → ... → LobbyState × List Ev`,
where the event list records the strings enqueued on clients' outgoing
channels (`client.outgoing <- msg`), in the order the coordinator enqueues
them.  Per the design notes, the mutual pointer references between clients
and rooms are replaced by id-indexed ownership: clients are addressed by a
numeric id, rooms by their (unique) name, and the coordinator owns both maps
as association lists.  `time.Now()` is passed explicitly as a `Nat` instant
(nanoseconds); the pool of pending room-deletion timer tasks
(`go func() { time.Sleep(...); lobby.delete <- room }()`) is modelled as the
`timers` field, a list of (fire instant, room name) pairs.
-/

set_option linter.unusedVariables false

namespace ChatApp

/-- Client identifiers (Go uses `*Client` pointers; we use stable ids). -/
abbrev ClientId := Nat

/-- One enqueue on a client's outgoing channel: (recipient id, string). -/
abbrev Ev := ClientId × String

/-! Constants from the server source.  The Go source builds several of these
from shared leading fragments ("/", "Error: ", "Notice: "); they are inlined
here, with the concatenation already performed. -/

def MaxClients : Nat := 10

def CmdCreate : String := "/create"

def CmdList : String := "/list"

def CmdJoin : String := "/join"

def CmdLeave : String := "/leave"

def CmdHelp : String := "/help"

def CmdName : String := "/name"

def CmdQuit : String := "/quit"

def ClientName : String := "Anonymous"

def ErrorSend : String := "Error: You cannot send messages in the lobby.\n"

def ErrorCreate : String := "Error: A chat room with that name already exists.\n"

def ErrorJoin : String := "Error: A chat room with that name does not exist.\n"

def ErrorLeave : String := "Error: You cannot leave the lobby.\n"

def NoticeRoomJoin : String := "Notice: \"%s\" joined the chat room.\n"

def NoticeRoomLeave : String := "Notice: \"%s\" left the chat room.\n"

def NoticeRoomName : String := "Notice: \"%s\" changed their name to \"%s\".\n"

def NoticeRoomDelete : String := "Notice: Chat room is inactive and being deleted.\n"

def NoticePersonalCreate : String := "Notice: Created chat room \"%s\".\n"

/-- Transcribed exactly from the source: the constant contains no `%s` verb
(the source reads `"Changed name to \"\".\n"`), which matters for the
rename-confirmation behaviour. -/
def NoticePersonalName : String := "Notice: Changed name to \"\".\n"

def MsgConnect : String := "Welcome to the server! Type \"/help\" to get a list of commands.\n"

def MsgFull : String := "Server is full. Please try reconnecting later."

/-- `ExpiryTime = 7 * 24 * time.Hour` in nanoseconds (Go `time.Duration`). -/
def ExpiryTime : Nat := 7 * 24 * 60 * 60 * 1000000000

/-! Model of the Go standard-library string functions the server uses
(`fmt.Sprintf` with `%s` verbs, `strings.HasPrefix`, `strings.TrimPrefix`,
`strings.TrimSuffix(s, "\n")`), on the character lists underlying `String`. -/

/-- Core of `fmt.Sprintf`: walk the format, substituting `%s` verbs from the
argument list; returns the produced characters and the unconsumed arguments. -/
def goFormatCore : List Char → List String → List Char × List String
  | [], args => ([], args)
  | '%' :: 's' :: rest, a :: args =>
      let r := goFormatCore rest args
      (a.data ++ r.1, r.2)
  | '%' :: 's' :: rest, [] =>
      let r := goFormatCore rest []
      ("%!s(MISSING)".data ++ r.1, r.2)
  | c :: rest, args =>
      let r := goFormatCore rest args
      (c :: r.1, r.2)

/-- Rendering of the extra-operand list in Go's `%!(EXTRA string=x, string=y)`. -/
def goExtraList : List String → String
  | [] => ""
  | [a] => "string=" ++ a
  | a :: rest => "string=" ++ a ++ ", " ++ goExtraList rest

/-- Model of `fmt.Sprintf` for string formats and string operands: `%s` verbs
consume operands in order; operands left over are appended Go-style as
`%!(EXTRA string=...)`. -/
def goSprintf (f : String) (args : List String) : String :=
  let r := goFormatCore f.data args
  match r.2 with
  | [] => String.mk r.1
  | extras => String.mk r.1 ++ "%!(EXTRA " ++ goExtraList extras ++ ")"

/-- Model of `strings.HasPrefix` on character lists: second list leads the first. -/
def goHasPre : List Char → List Char → Bool
  | _, [] => true
  | [], _ :: _ => false
  | c :: s, p :: ps => c == p && goHasPre s ps

/-- `strings.HasPrefix(s, p)`. -/
def goHasPreS (s p : String) : Bool := goHasPre s.data p.data

/-- `strings.TrimPrefix(s, p)`: drops `p` from the front when present,
otherwise returns `s` unchanged. -/
def goTrimPreS (s p : String) : String :=
  if goHasPreS s p then String.mk (s.data.drop p.data.length) else s

/-- `strings.TrimSuffix(s, "\n")`: drops one trailing newline when present. -/
def goTrimNl (s : String) : String :=
  if s.data.getLast? = some '\n' then String.mk s.data.dropLast else s

/-! The data model. -/

/-- A connected client's coordinator-visible state.  `chatRoom` is the
optional current room, by name (Go: `*ChatRoom` field).  `connOpen` records
whether the TCP connection is still open (`Quit` closes it) and
`outgoingClosed` whether the outgoing channel was closed (`Lobby.Leave`
closes it). -/
structure Client where
  name : String
  chatRoom : Option String
  connOpen : Bool
  outgoingClosed : Bool
deriving DecidableEq, Repr

/-- A chat room: name, member ids in insertion order, broadcast history in
order, and the current expiry instant. -/
structure ChatRoom where
  name : String
  clients : List ClientId
  messages : List String
  expiry : Nat
deriving DecidableEq, Repr

/-- A message forwarded by a read pump: the Kitchen-format rendering of its
timestamp, the sender id, and the newline-stripped text. -/
structure Message where
  timeStr : String
  client : ClientId
  text : String
deriving DecidableEq, Repr

/-- The coordinator's state: the roster (`lobby.clients`, in join order), the
heap of client records addressed by id, the room directory
(`lobby.chatRooms`), and the pending deletion-check timers. -/
structure LobbyState where
  roster : List ClientId
  clientOf : List (ClientId × Client)
  chatRooms : List (String × ChatRoom)
  timers : List (Nat × String)
deriving DecidableEq, Repr

/-! Association-list primitives (the Go `map` and pointer heap). -/

def lookupA {α β : Type} [DecidableEq α] : List (α × β) → α → Option β
  | [], _ => none
  | (k, v) :: rest, a => if a = k then some v else lookupA rest a

def updateA {α β : Type} [DecidableEq α] : List (α × β) → α → β → List (α × β)
  | [], a, b => [(a, b)]
  | (k, v) :: rest, a, b => if a = k then (a, b) :: rest else (k, v) :: updateA rest a b

def removeA {α β : Type} [DecidableEq α] : List (α × β) → α → List (α × β)
  | [], _ => []
  | (k, v) :: rest, a => if a = k then rest else (k, v) :: removeA rest a

/-- Removal of the first occurrence, as the Go `for i, c := range` / slice
splice / `break` idiom does. -/
def removeFirst {α : Type} [DecidableEq α] : List α → α → List α
  | [], _ => []
  | x :: xs, a => if x = a then xs else x :: removeFirst xs a

/-- Number of occurrences of an id in a list. -/
def countOcc : List ClientId → ClientId → Nat
  | [], _ => 0
  | x :: xs, a => countOcc xs a + (if x = a then 1 else 0)

/-! Field assignments on the client heap (Go assigns through the pointer). -/

/-- `client.chatRoom = r` (no-op on an unknown id, which cannot arise). -/
def setClientRoom (σ : LobbyState) (cid : ClientId) (o : Option String) : LobbyState :=
  match lookupA σ.clientOf cid with
  | some c => { σ with clientOf := updateA σ.clientOf cid { c with chatRoom := o } }
  | none => σ

/-- `client.name = nm`. -/
def setClientName (σ : LobbyState) (cid : ClientId) (nm : String) : LobbyState :=
  match lookupA σ.clientOf cid with
  | some c => { σ with clientOf := updateA σ.clientOf cid { c with name := nm } }
  | none => σ

/-- `close(client.outgoing)`. -/
def setClientClosed (σ : LobbyState) (cid : ClientId) : LobbyState :=
  match lookupA σ.clientOf cid with
  | some c => { σ with clientOf := updateA σ.clientOf cid { c with outgoingClosed := true } }
  | none => σ

/-- `client.Quit()`: `client.conn.Close()`. -/
def lobbyQuit (σ : LobbyState) (cid : ClientId) : LobbyState :=
  match lookupA σ.clientOf cid with
  | some c => { σ with clientOf := updateA σ.clientOf cid { c with connOpen := false } }
  | none => σ

/-! The chat room operations (`ChatRoom` methods). -/

/-- `NewChatRoom(name)`: empty room expiring at `now + ExpiryTime`. -/
def newChatRoom (nm : String) (now : Nat) : ChatRoom :=
  { name := nm, clients := [], messages := [], expiry := now + ExpiryTime }

/-- `ChatRoom.Broadcast(message)`: refresh the expiry, append to the history,
and enqueue the message on every current member's outgoing channel. -/
def chatRoomBroadcast (σ : LobbyState) (rname : String) (now : Nat) (msg : String) :
    LobbyState × List Ev :=
  match lookupA σ.chatRooms rname with
  | none => (σ, [])
  | some r =>
      let r₁ := { r with expiry := now + ExpiryTime, messages := r.messages ++ [msg] }
      ({ σ with chatRooms := updateA σ.chatRooms rname r₁ },
       r.clients.map (fun x => (x, msg)))

/-- `ChatRoom.Join(client)`: set the client's room reference, replay the full
history onto the joiner's outgoing channel, append the client to the
membership, then broadcast the join notice (which the joiner, now a member,
also receives). -/
def chatRoomJoin (σ : LobbyState) (rname : String) (cid : ClientId) (now : Nat) :
    LobbyState × List Ev :=
  let σ₁ := setClientRoom σ cid (some rname)
  match lookupA σ₁.chatRooms rname, lookupA σ₁.clientOf cid with
  | some r, some c =>
      let replay := r.messages.map (fun m => (cid, m))
      let r₁ := { r with clients := r.clients ++ [cid] }
      let σ₂ := { σ₁ with chatRooms := updateA σ₁.chatRooms rname r₁ }
      let b := chatRoomBroadcast σ₂ rname now (goSprintf NoticeRoomJoin [c.name])
      (b.1, replay ++ b.2)
  | _, _ => (σ₁, [])

/-- `ChatRoom.Leave(client)`: broadcast the departure notice (the leaver is
still a member and receives it), remove the client from the membership, then
clear the client's room reference. -/
def chatRoomLeave (σ : LobbyState) (rname : String) (cid : ClientId) (now : Nat) :
    LobbyState × List Ev :=
  match lookupA σ.clientOf cid with
  | none => (σ, [])
  | some c =>
      let b := chatRoomBroadcast σ rname now (goSprintf NoticeRoomLeave [c.name])
      let σ₂ :=
        match lookupA b.1.chatRooms rname with
        | some r =>
            let r₁ := { r with clients := removeFirst r.clients cid }
            { b.1 with chatRooms := updateA b.1.chatRooms rname r₁ }
        | none => b.1
      (setClientRoom σ₂ cid none, b.2)

/-- `ChatRoom.Delete()`: broadcast the deletion notice, then clear every
member's room reference (members stay connected). -/
def chatRoomDelete (σ : LobbyState) (rname : String) (now : Nat) :
    LobbyState × List Ev :=
  let b := chatRoomBroadcast σ rname now NoticeRoomDelete
  match lookupA b.1.chatRooms rname with
  | some r => (r.clients.foldl (fun s x => setClientRoom s x none) b.1, b.2)
  | none => (b.1, b.2)

/-! The lobby operations (`Lobby` methods). -/

/-- `Lobby.Join(client)`: at capacity, disconnect the client (`client.Quit()`)
without adding it to the roster; otherwise append it and send the welcome.
The fresh session record `c` enters the heap either way (`NewClient` ran). -/
def lobbyJoin (σ : LobbyState) (cid : ClientId) (c : Client) : LobbyState × List Ev :=
  let σ₀ := { σ with clientOf := updateA σ.clientOf cid c }
  if MaxClients ≤ σ₀.roster.length then
    (lobbyQuit σ₀ cid, [])
  else
    ({ σ₀ with roster := σ₀.roster ++ [cid] }, [(cid, MsgConnect)])

/-- `Lobby.Leave(client)`: room-leave first when in a room, then remove from
the roster, then close the outgoing channel. -/
def lobbyLeave (σ : LobbyState) (cid : ClientId) (now : Nat) : LobbyState × List Ev :=
  let s :=
    match lookupA σ.clientOf cid with
    | some c =>
        match c.chatRoom with
        | some rname => chatRoomLeave σ rname cid now
        | none => (σ, [])
    | none => (σ, [])
  let σ₂ := { s.1 with roster := removeFirst s.1.roster cid }
  (setClientClosed σ₂ cid, s.2)

/-- `Lobby.DeleteChatRoom(chatRoom)`: the deletion check.  If the expiry is
still in the future, re-arm a timer for the (new) expiry instant; otherwise
delete the room and drop its directory entry. -/
def lobbyDeleteChatRoom (σ : LobbyState) (rname : String) (now : Nat) :
    LobbyState × List Ev :=
  match lookupA σ.chatRooms rname with
  | none => (σ, [])
  | some r =>
      if now < r.expiry then
        ({ σ with timers := σ.timers ++ [(r.expiry, rname)] }, [])
      else
        let d := chatRoomDelete σ rname now
        ({ d.1 with chatRooms := removeA d.1.chatRooms rname }, d.2)

/-- `Lobby.SendMessage(message)`: error notice when the sender is in no room,
otherwise broadcast `message.String()` to the sender's room.  The sender's
display name is read at send time. -/
def lobbySendMessage (σ : LobbyState) (m : Message) (now : Nat) : LobbyState × List Ev :=
  match lookupA σ.clientOf m.client with
  | none => (σ, [])
  | some c =>
      match c.chatRoom with
      | none => (σ, [(m.client, ErrorSend)])
      | some rname =>
          chatRoomBroadcast σ rname now (goSprintf "%s - %s: %s\n" [m.timeStr, c.name, m.text])

/-- `Lobby.CreateChatRoom(client, name)`: conflict notice when the name is
taken; otherwise create the room, arm its first deletion check at
`now + ExpiryTime`, and confirm to the requester. -/
def lobbyCreateChatRoom (σ : LobbyState) (cid : ClientId) (nm : String) (now : Nat) :
    LobbyState × List Ev :=
  match lookupA σ.chatRooms nm with
  | some _ => (σ, [(cid, ErrorCreate)])
  | none =>
      ({ σ with chatRooms := updateA σ.chatRooms nm (newChatRoom nm now),
                timers := σ.timers ++ [(now + ExpiryTime, nm)] },
       [(cid, goSprintf NoticePersonalCreate [nm])])

/-- `Lobby.LeaveChatRoom(client)`: error notice when in no room, otherwise
room-leave. -/
def lobbyLeaveChatRoom (σ : LobbyState) (cid : ClientId) (now : Nat) : LobbyState × List Ev :=
  match lookupA σ.clientOf cid with
  | none => (σ, [])
  | some c =>
      match c.chatRoom with
      | none => (σ, [(cid, ErrorLeave)])
      | some rname => chatRoomLeave σ rname cid now

/-- `Lobby.JoinChatRoom(client, name)`: error notice when the name is absent;
otherwise leave the current room first (when any), then room-join the target. -/
def lobbyJoinChatRoom (σ : LobbyState) (cid : ClientId) (nm : String) (now : Nat) :
    LobbyState × List Ev :=
  match lookupA σ.chatRooms nm with
  | none => (σ, [(cid, ErrorJoin)])
  | some _ =>
      let s :=
        match lookupA σ.clientOf cid with
        | some c =>
            match c.chatRoom with
            | some _ => lobbyLeaveChatRoom σ cid now
            | none => (σ, [])
        | none => (σ, [])
      let j := chatRoomJoin s.1 nm cid now
      (j.1, s.2 ++ j.2)

/-- `Lobby.ChangeName(client, name)`: personal confirmation when in no room
(the source formats `NoticePersonalName`, which has no verb, against the new
name), room broadcast otherwise; then the name field is updated. -/
def lobbyChangeName (σ : LobbyState) (cid : ClientId) (nm : String) (now : Nat) :
    LobbyState × List Ev :=
  match lookupA σ.clientOf cid with
  | none => (σ, [])
  | some c =>
      let s :=
        match c.chatRoom with
        | none => (σ, [(cid, goSprintf NoticePersonalName [nm])])
        | some rname => chatRoomBroadcast σ rname now (goSprintf NoticeRoomName [c.name, nm])
      (setClientName s.1 cid nm, s.2)

/-- `Lobby.ListChatRooms(client)`: the list body, one room name per line, in
directory order. -/
def lobbyListChatRooms (σ : LobbyState) (cid : ClientId) : LobbyState × List Ev :=
  (σ, [(cid, "\n"), (cid, "Chat Rooms:\n")]
      ++ σ.chatRooms.map (fun p => (cid, goSprintf "%s\n" [p.1]))
      ++ [(cid, "\n")])

/-- `Lobby.Help(client)`: the static help body. -/
def lobbyHelp (σ : LobbyState) (cid : ClientId) : LobbyState × List Ev :=
  (σ, [(cid, "\n"), (cid, "Commands:\n"),
       (cid, "/help - lists all commands\n"),
       (cid, "/list - lists all chatrooms\n"),
       (cid, "/create foo - creates a chatroom named foo\n"),
       (cid, "/join foo - joins a chatroom named foo\n"),
       (cid, "/leave - leaves the current chatroom\n"),
       (cid, "/name foo - changes your name to foo\n"),
       (cid, "/quit - quits the program\n"),
       (cid, "\n")])

/-- `Lobby.Parse(message)`: the dispatcher switch, with the cases in source
order; each named-argument command trims `"<cmd> "` as a prefix and a
trailing newline from the text to obtain its argument. -/
def lobbyParse (σ : LobbyState) (m : Message) (now : Nat) : LobbyState × List Ev :=
  if goHasPreS m.text CmdCreate then
    lobbyCreateChatRoom σ m.client (goTrimNl (goTrimPreS m.text (CmdCreate ++ " "))) now
  else if goHasPreS m.text CmdList then
    lobbyListChatRooms σ m.client
  else if goHasPreS m.text CmdJoin then
    lobbyJoinChatRoom σ m.client (goTrimNl (goTrimPreS m.text (CmdJoin ++ " "))) now
  else if goHasPreS m.text CmdLeave then
    lobbyLeaveChatRoom σ m.client now
  else if goHasPreS m.text CmdName then
    lobbyChangeName σ m.client (goTrimNl (goTrimPreS m.text (CmdName ++ " "))) now
  else if goHasPreS m.text CmdHelp then
    lobbyHelp σ m.client
  else if goHasPreS m.text CmdQuit then
    (lobbyQuit σ m.client, [])
  else
    lobbySendMessage σ m now

/-! Derived notions used to state the claims. -/

/-- The strings enqueued for one recipient, in order. -/
def sentTo (cid : ClientId) : List Ev → List String
  | [] => []
  | e :: rest => if e.1 = cid then e.2 :: sentTo cid rest else sentTo cid rest

/-- A sequence of later broadcasts into one room, each with its own instant. -/
def broadcastMany (σ : LobbyState) (rname : String) : List (Nat × String) → LobbyState × List Ev
  | [] => (σ, [])
  | (n, t) :: rest =>
      let b := chatRoomBroadcast σ rname n t
      let s := broadcastMany b.1 rname rest
      (s.1, b.2 ++ s.2)

/-- Lobby-level join/leave events, for roster-invariant statements. -/
inductive LAct where
  | joinA (cid : ClientId) (c : Client)
  | leaveA (cid : ClientId) (now : Nat)
deriving DecidableEq, Repr

def lobbyStep (σ : LobbyState) : LAct → LobbyState
  | .joinA cid c => (lobbyJoin σ cid c).1
  | .leaveA cid now => (lobbyLeave σ cid now).1

def lobbySteps (σ : LobbyState) (as : List LAct) : LobbyState := as.foldl lobbyStep σ

/-! Spec-side summary of the dispatcher, for the grammar claim: the shape a
line is routed to, with its computed argument. -/

inductive Cmd where
  | create (arg : String)
  | list
  | join (arg : String)
  | leave
  | rename (arg : String)
  | help
  | quit
  | chat
deriving DecidableEq, Repr

/-- The argument a named-argument command extracts: the line with the
command word plus one space stripped from the front when present (the whole
line otherwise), and a trailing newline trimmed. -/
def argAfter (text w : String) : String := goTrimNl (goTrimPreS text (w ++ " "))

/-- Where the dispatcher routes a line: the first command word (in source
case order) that is a string prefix of the line wins; a line starting with
no command word is chat content. -/
def parsedCmd (text : String) : Cmd :=
  if goHasPreS text CmdCreate then .create (argAfter text CmdCreate)
  else if goHasPreS text CmdList then .list
  else if goHasPreS text CmdJoin then .join (argAfter text CmdJoin)
  else if goHasPreS text CmdLeave then .leave
  else if goHasPreS text CmdName then .rename (argAfter text CmdName)
  else if goHasPreS text CmdHelp then .help
  else if goHasPreS text CmdQuit then .quit
  else .chat

/-! Concrete states used by witnesses and counterexamples. -/

def fullLobby : LobbyState :=
  { roster := [0, 1, 2, 3, 4, 5, 6, 7, 8, 9], clientOf := [], chatRooms := [], timers := [] }

def freshClient : Client :=
  { name := "Anonymous", chatRoom := none, connOpen := true, outgoingClosed := false }

def c3State : LobbyState :=
  { roster := [0],
    clientOf := [(0, { name := "Anonymous", chatRoom := none, connOpen := true,
                       outgoingClosed := false })],
    chatRooms := [("general", { name := "general", clients := [], messages := [],
                                expiry := 100 })],
    timers := [] }

def c4State : LobbyState :=
  { roster := [0],
    clientOf := [(0, { name := "Anonymous", chatRoom := some "g", connOpen := true,
                       outgoingClosed := false })],
    chatRooms := [("g", { name := "g", clients := [0], messages := [], expiry := 100 })],
    timers := [(100, "g")] }

def c8State : LobbyState :=
  { roster := [0],
    clientOf := [(0, { name := "Anonymous", chatRoom := none, connOpen := true,
                       outgoingClosed := false })],
    chatRooms := [], timers := [] }

def c1State : LobbyState :=
  { roster := [0, 5],
    clientOf := [(0, { name := "Ann", chatRoom := some "g", connOpen := true,
                       outgoingClosed := false }),
                 (5, { name := "Bob", chatRoom := none, connOpen := true,
                       outgoingClosed := false })],
    chatRooms := [("g", { name := "g", clients := [0], messages := ["a", "b"],
                          expiry := 100 })],
    timers := [] }

def c6State : LobbyState :=
  { roster := [0, 1, 2],
    clientOf := [(0, { name := "Ann", chatRoom := some "g", connOpen := true,
                       outgoingClosed := false }),
                 (1, { name := "Bob", chatRoom := some "g", connOpen := true,
                       outgoingClosed := false }),
                 (2, { name := "Cid", chatRoom := none, connOpen := true,
                       outgoingClosed := false })],
    chatRooms := [("g", { name := "g", clients := [0, 1], messages := ["m"],
                          expiry := 10 })],
    timers := [] }

def c10State : LobbyState :=
  { roster := [0, 1],
    clientOf := [(0, { name := "Ann", chatRoom := some "g", connOpen := true,
                       outgoingClosed := false }),
                 (1, { name := "Bob", chatRoom := some "g", connOpen := true,
                       outgoingClosed := false })],
    chatRooms := [("g", { name := "g", clients := [0, 1], messages := ["m1", "m2"],
                          expiry := 100 })],
    timers := [] }

/-! Basic lemmas about the association-list and list primitives. -/

theorem lookupA_updateA_self {α β : Type} [DecidableEq α] (l : List (α × β)) (k : α) (v : β) :
    lookupA (updateA l k v) k = some v := by
  induction l with
  | nil => simp [updateA, lookupA]
  | cons hd t ih =>
      obtain ⟨a, b⟩ := hd
      by_cases hk : k = a
      · simp [updateA, hk, lookupA]
      · simp [updateA, hk, lookupA, ih]

theorem lookupA_updateA_ne {α β : Type} [DecidableEq α] (l : List (α × β)) (k k' : α) (v : β)
    (h : k' ≠ k) : lookupA (updateA l k v) k' = lookupA l k' := by
  induction l with
  | nil => simp [updateA, lookupA, h]
  | cons hd t ih =>
      obtain ⟨a, b⟩ := hd
      by_cases hk : k = a
      · subst hk
        simp [updateA, lookupA, h]
      · by_cases hk' : k' = a
        · simp [updateA, lookupA, hk, hk']
        · simp [updateA, lookupA, hk, hk', ih]

theorem lookupA_removeA_ne {α β : Type} [DecidableEq α] (l : List (α × β)) (k k' : α)
    (h : k' ≠ k) : lookupA (removeA l k) k' = lookupA l k' := by
  induction l with
  | nil => simp [removeA]
  | cons hd t ih =>
      obtain ⟨a, b⟩ := hd
      by_cases hk : k = a
      · subst hk
        simp [removeA, lookupA, h]
      · by_cases hk' : k' = a
        · simp [removeA, lookupA, hk, hk']
        · simp [removeA, lookupA, hk, hk', ih]

theorem lookupA_eq_none_of_not_mem {α β : Type} [DecidableEq α] (l : List (α × β)) (k : α)
    (h : k ∉ l.map Prod.fst) : lookupA l k = none := by
  induction l with
  | nil => simp [lookupA]
  | cons hd t ih =>
      obtain ⟨a, b⟩ := hd
      simp only [List.map_cons, List.mem_cons, not_or] at h
      simp [lookupA, h.1, ih h.2]

theorem lookupA_removeA_self {α β : Type} [DecidableEq α] (l : List (α × β)) (k : α)
    (h : (l.map Prod.fst).Nodup) : lookupA (removeA l k) k = none := by
  induction l with
  | nil => simp [removeA, lookupA]
  | cons hd t ih =>
      obtain ⟨a, b⟩ := hd
      simp only [List.map_cons, List.nodup_cons] at h
      by_cases hk : k = a
      · subst hk
        simpa [removeA] using lookupA_eq_none_of_not_mem t _ h.1
      · simp [removeA, lookupA, hk, ih h.2]

theorem map_fst_updateA_of_lookup {α β : Type} [DecidableEq α] (l : List (α × β)) (k : α)
    (v : β) (r : β) (h : lookupA l k = some r) :
    (updateA l k v).map Prod.fst = l.map Prod.fst := by
  induction l with
  | nil => simp [lookupA] at h
  | cons hd t ih =>
      obtain ⟨a, b⟩ := hd
      by_cases hk : k = a
      · subst hk
        simp [updateA]
      · simp only [lookupA, if_neg hk] at h
        simp [updateA, hk, ih h]

theorem removeFirst_length_le {α : Type} [DecidableEq α] (l : List α) (a : α) :
    (removeFirst l a).length ≤ l.length := by
  induction l with
  | nil => simp [removeFirst]
  | cons x xs ih =>
      by_cases hx : x = a
      · simp [removeFirst, hx]
      · simp only [removeFirst, if_neg hx, List.length_cons]
        omega

theorem countOcc_append (l₁ l₂ : List ClientId) (a : ClientId) :
    countOcc (l₁ ++ l₂) a = countOcc l₁ a + countOcc l₂ a := by
  induction l₁ with
  | nil => simp [countOcc]
  | cons x xs ih => simp [countOcc, ih]; omega

theorem countOcc_eq_zero_of_not_mem (l : List ClientId) (a : ClientId) (h : a ∉ l) :
    countOcc l a = 0 := by
  induction l with
  | nil => rfl
  | cons x xs ih =>
      simp only [List.mem_cons, not_or] at h
      simp [countOcc, Ne.symm h.1, ih h.2]

theorem countOcc_removeFirst (l : List ClientId) (a : ClientId) :
    countOcc (removeFirst l a) a = countOcc l a - 1 := by
  induction l with
  | nil => simp [removeFirst, countOcc]
  | cons x xs ih =>
      by_cases hx : x = a
      · simp [removeFirst, hx, countOcc]
      · simp [removeFirst, hx, countOcc, ih]

theorem sentTo_append (cid : ClientId) (evs₁ evs₂ : List Ev) :
    sentTo cid (evs₁ ++ evs₂) = sentTo cid evs₁ ++ sentTo cid evs₂ := by
  induction evs₁ with
  | nil => simp [sentTo]
  | cons e rest ih =>
      by_cases he : e.1 = cid <;> simp [sentTo, he, ih]

theorem sentTo_map_const (cid : ClientId) (msg : String) (l : List ClientId) :
    sentTo cid (l.map fun x => (x, msg)) = List.replicate (countOcc l cid) msg := by
  induction l with
  | nil => simp [sentTo, countOcc]
  | cons x xs ih =>
      by_cases hx : x = cid
      · subst hx
        simp [sentTo, countOcc, ih, List.replicate_succ]
      · simp [sentTo, countOcc, hx, ih]

theorem sentTo_map_self (cid : ClientId) (ms : List String) :
    sentTo cid (ms.map fun m => (cid, m)) = ms := by
  induction ms with
  | nil => rfl
  | cons m rest ih => simp [sentTo, ih]

/-! Frame lemmas: which state components each operation leaves alone. -/

theorem chatRoomBroadcast_some (σ : LobbyState) (rname : String) (now : Nat) (msg : String)
    (r : ChatRoom) (hr : lookupA σ.chatRooms rname = some r) :
    chatRoomBroadcast σ rname now msg =
      ({ σ with chatRooms := updateA σ.chatRooms rname { r with expiry := now + ExpiryTime, messages := r.messages ++ [msg] } },
       r.clients.map fun x => (x, msg)) := by
  simp [chatRoomBroadcast, hr]

theorem chatRoomBroadcast_timers (σ : LobbyState) (rname : String) (now : Nat) (msg : String) :
    (chatRoomBroadcast σ rname now msg).1.timers = σ.timers := by
  unfold chatRoomBroadcast
  cases lookupA σ.chatRooms rname <;> simp

theorem chatRoomBroadcast_roster (σ : LobbyState) (rname : String) (now : Nat) (msg : String) :
    (chatRoomBroadcast σ rname now msg).1.roster = σ.roster := by
  unfold chatRoomBroadcast
  cases lookupA σ.chatRooms rname <;> simp

theorem chatRoomBroadcast_clientOf (σ : LobbyState) (rname : String) (now : Nat) (msg : String) :
    (chatRoomBroadcast σ rname now msg).1.clientOf = σ.clientOf := by
  unfold chatRoomBroadcast
  cases lookupA σ.chatRooms rname <;> simp

theorem setClientRoom_roster (σ : LobbyState) (cid : ClientId) (o : Option String) :
    (setClientRoom σ cid o).roster = σ.roster := by
  unfold setClientRoom
  cases lookupA σ.clientOf cid <;> simp

theorem setClientRoom_chatRooms (σ : LobbyState) (cid : ClientId) (o : Option String) :
    (setClientRoom σ cid o).chatRooms = σ.chatRooms := by
  unfold setClientRoom
  cases lookupA σ.clientOf cid <;> simp

theorem setClientRoom_timers (σ : LobbyState) (cid : ClientId) (o : Option String) :
    (setClientRoom σ cid o).timers = σ.timers := by
  unfold setClientRoom
  cases lookupA σ.clientOf cid <;> simp

theorem setClientClosed_roster (σ : LobbyState) (cid : ClientId) :
    (setClientClosed σ cid).roster = σ.roster := by
  unfold setClientClosed
  cases lookupA σ.clientOf cid <;> simp

theorem lobbyQuit_roster (σ : LobbyState) (cid : ClientId) :
    (lobbyQuit σ cid).roster = σ.roster := by
  unfold lobbyQuit
  cases lookupA σ.clientOf cid <;> simp

theorem chatRoomLeave_roster (σ : LobbyState) (rname : String) (cid : ClientId) (now : Nat) :
    (chatRoomLeave σ rname cid now).1.roster = σ.roster := by
  unfold chatRoomLeave
  cases lookupA σ.clientOf cid with
  | none => simp
  | some c =>
      dsimp only
      rw [setClientRoom_roster]
      split <;> simp [chatRoomBroadcast_roster]

theorem lobbyLeave_roster (σ : LobbyState) (cid : ClientId) (now : Nat) :
    (lobbyLeave σ cid now).1.roster = removeFirst σ.roster cid := by
  unfold lobbyLeave
  cases hc : lookupA σ.clientOf cid with
  | none => simp [setClientClosed_roster]
  | some c =>
      cases hr : c.chatRoom with
      | none => simp [hr, setClientClosed_roster]
      | some rname => simp [hr, setClientClosed_roster, chatRoomLeave_roster]

/-- At capacity, `Lobby.Join` is exactly: record the session, close its
connection, send nothing. -/
theorem lobbyJoin_atCapacity (σ : LobbyState) (cid : ClientId) (c : Client)
    (h : MaxClients ≤ σ.roster.length) :
    lobbyJoin σ cid c =
      ({ σ with clientOf :=
          updateA (updateA σ.clientOf cid c) cid { c with connOpen := false } }, []) := by
  unfold lobbyJoin lobbyQuit
  rw [if_pos (show MaxClients ≤ _ from h)]
  simp [lookupA_updateA_self]

theorem lobbyJoin_roster (σ : LobbyState) (cid : ClientId) (c : Client) :
    (lobbyJoin σ cid c).1.roster =
      if MaxClients ≤ σ.roster.length then σ.roster else σ.roster ++ [cid] := by
  by_cases h : MaxClients ≤ σ.roster.length
  · rw [lobbyJoin_atCapacity σ cid c h, if_pos h]
  · unfold lobbyJoin
    rw [if_neg (show ¬ MaxClients ≤ _ from h), if_neg h]

/-! ### C2 -/

/-- C2: for any sequence of lobby join and leave events, the roster size
never exceeds `MaxClients`; a join attempted while the roster is at capacity
leaves the roster unchanged (so the client is never added) and disconnects
the client by closing its connection. -/
theorem rosterNeverExceedsCapacity (σ : LobbyState) (as : List LAct)
    (h : σ.roster.length ≤ MaxClients) :
    (lobbySteps σ as).roster.length ≤ MaxClients ∧
    ∀ cid c, MaxClients ≤ σ.roster.length →
      (lobbyJoin σ cid c).1.roster = σ.roster ∧
      (cid ∉ σ.roster → cid ∉ (lobbyJoin σ cid c).1.roster) ∧
      lookupA (lobbyJoin σ cid c).1.clientOf cid = some { c with connOpen := false } ∧
      (lobbyJoin σ cid c).2 = [] := by
  have step : ∀ σ' a, σ'.roster.length ≤ MaxClients →
      (lobbyStep σ' a).roster.length ≤ MaxClients := by
    intro σ' a h'
    cases a with
    | joinA cid c =>
        show (lobbyJoin σ' cid c).1.roster.length ≤ _
        rw [lobbyJoin_roster]
        by_cases hcap : MaxClients ≤ σ'.roster.length
        · simpa [hcap] using h'
        · simp only [if_neg hcap, List.length_append, List.length_cons, List.length_nil]
          omega
    | leaveA cid now =>
        show (lobbyLeave σ' cid now).1.roster.length ≤ _
        rw [lobbyLeave_roster]
        exact le_trans (removeFirst_length_le _ _) h'
  have main : ∀ bs σ', σ'.roster.length ≤ MaxClients →
      (lobbySteps σ' bs).roster.length ≤ MaxClients := by
    intro bs
    induction bs with
    | nil => intro σ' h'; exact h'
    | cons a t ih =>
        intro σ' h'
        have : lobbySteps σ' (a :: t) = lobbySteps (lobbyStep σ' a) t := by
          simp [lobbySteps]
        rw [this]
        exact ih _ (step σ' a h')
  refine ⟨main as σ h, ?_⟩
  intro cid c hcap
  rw [lobbyJoin_atCapacity σ cid c hcap]
  refine ⟨rfl, fun hmem => hmem, ?_, rfl⟩
  exact lookupA_updateA_self _ _ _

/-- Witness for C2 at a concrete full lobby. -/
theorem rosterNeverExceedsCapacityWitness :
    (lobbySteps fullLobby [LAct.joinA 10 freshClient, LAct.leaveA 3 0]).roster.length ≤ MaxClients ∧
    (lobbyJoin fullLobby 10 freshClient).1.roster = fullLobby.roster ∧
    lookupA (lobbyJoin fullLobby 10 freshClient).1.clientOf 10 =
      some { freshClient with connOpen := false } := by
  have h := rosterNeverExceedsCapacity fullLobby [LAct.joinA 10 freshClient, LAct.leaveA 3 0]
    (by decide)
  exact ⟨h.1, (h.2 10 freshClient (by decide)).1, (h.2 10 freshClient (by decide)).2.2.1⟩

/-! ### C3 -/

/-- C3: each protocol-level error — chat line with no current room, `/create`
with a taken name, `/join` with an unknown name, `/leave` with no current
room — sends exactly one error notice, to the offending client only, and
returns the lobby state completely unchanged. -/
theorem protocolErrorsLeaveStateUnchanged (σ : LobbyState) (cid : ClientId) (c : Client)
    (now : Nat) (ts tx nm nm2 : String)
    (hc : lookupA σ.clientOf cid = some c) (hnr : c.chatRoom = none)
    (hex : (lookupA σ.chatRooms nm).isSome) (hnx : lookupA σ.chatRooms nm2 = none) :
    lobbySendMessage σ ⟨ts, cid, tx⟩ now = (σ, [(cid, ErrorSend)]) ∧
    lobbyCreateChatRoom σ cid nm now = (σ, [(cid, ErrorCreate)]) ∧
    lobbyJoinChatRoom σ cid nm2 now = (σ, [(cid, ErrorJoin)]) ∧
    lobbyLeaveChatRoom σ cid now = (σ, [(cid, ErrorLeave)]) := by
  refine ⟨?_, ?_, ?_, ?_⟩
  · simp [lobbySendMessage, hc, hnr]
  · obtain ⟨r, hr⟩ := Option.isSome_iff_exists.mp hex
    simp [lobbyCreateChatRoom, hr]
  · simp [lobbyJoinChatRoom, hnx]
  · simp [lobbyLeaveChatRoom, hc, hnr]

/-- Witness for C3 at a concrete lobby with one roomless client. -/
theorem protocolErrorsLeaveStateUnchangedWitness :
    lobbySendMessage c3State ⟨"9:00AM", 0, "hi"⟩ 0 = (c3State, [(0, ErrorSend)]) ∧
    lobbyCreateChatRoom c3State 0 "general" 0 = (c3State, [(0, ErrorCreate)]) ∧
    lobbyJoinChatRoom c3State 0 "nope" 0 = (c3State, [(0, ErrorJoin)]) ∧
    lobbyLeaveChatRoom c3State 0 0 = (c3State, [(0, ErrorLeave)]) :=
  protocolErrorsLeaveStateUnchanged c3State 0
    { name := "Anonymous", chatRoom := none, connOpen := true, outgoingClosed := false }
    0 "9:00AM" "hi" "general" "nope" (by decide) (by decide) (by decide) (by decide)

/-! ### C4 -/

/-- C4 counterexample: a broadcast into a live room appends to the history
but arms no new deletion check — the pending-timer pool is unchanged, and in
particular no check at the room's refreshed expiry instant `5 + ExpiryTime`
appears. -/
theorem broadcastSchedulesNoCheckCounterexample :
    (chatRoomBroadcast c4State "g" 5 "hi").1.timers = c4State.timers ∧
    (lookupA (chatRoomBroadcast c4State "g" 5 "hi").1.chatRooms "g").map ChatRoom.messages
      = some ["hi"] ∧
    (5 + ExpiryTime, "g") ∉ (chatRoomBroadcast c4State "g" 5 "hi").1.timers := by
  decide

/-- C4 (amended): a room arms exactly one deletion check at creation time,
set for its expiry instant `now + ExpiryTime`; a broadcast refreshes the
expiry but arms no new check (rescheduling happens only when a pending check
fires while the expiry is still in the future). -/
theorem deletionCheckSchedulingAmended (σ : LobbyState) (cid : ClientId) (nm : String)
    (now : Nat) (h : lookupA σ.chatRooms nm = none) :
    (lobbyCreateChatRoom σ cid nm now).1.timers = σ.timers ++ [(now + ExpiryTime, nm)] ∧
    lookupA (lobbyCreateChatRoom σ cid nm now).1.chatRooms nm = some (newChatRoom nm now) ∧
    (newChatRoom nm now).expiry = now + ExpiryTime ∧
    ∀ rname t msg, (chatRoomBroadcast σ rname t msg).1.timers = σ.timers := by
  refine ⟨?_, ?_, rfl, ?_⟩
  · simp [lobbyCreateChatRoom, h]
  · simp [lobbyCreateChatRoom, h, lookupA_updateA_self]
  · intro rname t msg
    exact chatRoomBroadcast_timers σ rname t msg

/-- Witness for the amended C4 at a concrete creation. -/
theorem deletionCheckSchedulingAmendedWitness :
    (lobbyCreateChatRoom c3State 0 "dev" 7).1.timers = c3State.timers ++ [(7 + ExpiryTime, "dev")] ∧
    lookupA (lobbyCreateChatRoom c3State 0 "dev" 7).1.chatRooms "dev" = some (newChatRoom "dev" 7) := by
  have h := deletionCheckSchedulingAmended c3State 0 "dev" 7 (by decide)
  exact ⟨h.1, h.2.1⟩

/-! ### C5 -/

/-- C5: a deletion check on a room whose expiry instant is still in the
future deletes nothing — the state is unchanged except that a fresh check is
armed at the room's current (new) expiry instant — and a check only ever
removes a room from the directory when its expiry instant is not in the
future. -/
theorem deletionCheckRespectsExpiry (σ : LobbyState) (rname : String) (r : ChatRoom)
    (now : Nat) (hr : lookupA σ.chatRooms rname = some r) :
    (now < r.expiry →
      lobbyDeleteChatRoom σ rname now =
        ({ σ with timers := σ.timers ++ [(r.expiry, rname)] }, [])) ∧
    (lookupA (lobbyDeleteChatRoom σ rname now).1.chatRooms rname = none → r.expiry ≤ now) := by
  constructor
  · intro hfut
    simp [lobbyDeleteChatRoom, hr, hfut]
  · intro hdel
    by_cases hfut : now < r.expiry
    · exfalso
      have hsame : (lobbyDeleteChatRoom σ rname now).1.chatRooms = σ.chatRooms := by
        simp [lobbyDeleteChatRoom, hr, hfut]
      rw [hsame, hr] at hdel
      exact Option.noConfusion hdel
    · omega

/-- Witness for C5: a check at instant 5 on a room expiring at 100 merely
re-arms the timer. -/
theorem deletionCheckRespectsExpiryWitness :
    lobbyDeleteChatRoom c4State "g" 5 = ({ c4State with timers := [(100, "g"), (100, "g")] }, []) := by
  have h := (deletionCheckRespectsExpiry c4State "g"
    { name := "g", clients := [0], messages := [], expiry := 100 } 5 (by decide)).1 (by decide)
  simpa [c4State] using h

/-! ### C7 -/

/-- C7 counterexample: a join rejected at capacity enqueues nothing at all —
in particular the rejected client is never sent the room-full string
`MsgFull` — although it is disconnected. -/
theorem capacityRejectionSendsNoNotice :
    (lobbyJoin fullLobby 10 freshClient).2 = [] ∧
    (10, MsgFull) ∉ (lobbyJoin fullLobby 10 freshClient).2 ∧
    lookupA (lobbyJoin fullLobby 10 freshClient).1.clientOf 10 =
      some { freshClient with connOpen := false } := by
  decide

/-- C7 (amended): a client whose join is rejected because the roster is at
capacity is disconnected (its connection is closed) without being sent any
notice; the roster is unchanged.  The room-full string `MsgFull` exists in
the source but is never sent. -/
theorem capacityRejectionDisconnectsSilently (σ : LobbyState) (cid : ClientId) (c : Client)
    (h : MaxClients ≤ σ.roster.length) :
    (lobbyJoin σ cid c).2 = [] ∧
    (lobbyJoin σ cid c).1.roster = σ.roster ∧
    lookupA (lobbyJoin σ cid c).1.clientOf cid = some { c with connOpen := false } := by
  rw [lobbyJoin_atCapacity σ cid c h]
  exact ⟨rfl, rfl, lookupA_updateA_self _ _ _⟩

/-- Witness for the amended C7 at a concrete full lobby. -/
theorem capacityRejectionDisconnectsSilentlyWitness :
    (lobbyJoin fullLobby 11 freshClient).2 = [] ∧
    (lobbyJoin fullLobby 11 freshClient).1.roster = fullLobby.roster ∧
    lookupA (lobbyJoin fullLobby 11 freshClient).1.clientOf 11 =
      some { freshClient with connOpen := false } :=
  capacityRejectionDisconnectsSilently fullLobby 11 freshClient (by decide)

/-! ### C8 -/

/-- C8 (code bug): for a roomless client, `ChangeName` does update the name
and does send exactly one personal notice, but the notice does not match the
declared fixed format: the `NoticePersonalName` constant contains no `%s`
verb, so `fmt.Sprintf` appends Go's extra-operand error text, producing
`Notice: Changed name to "".\n%!(EXTRA string=Bob)` instead of a confirmation
containing the new name. -/
theorem renameConfirmationFormatBug :
    (lobbyChangeName c8State 0 "Bob" 0).2 =
      [(0, "Notice: Changed name to \"\".\n%!(EXTRA string=Bob)")] ∧
    (lookupA (lobbyChangeName c8State 0 "Bob" 0).1.clientOf 0).map Client.name = some "Bob" ∧
    goSprintf NoticePersonalName ["Bob"] ≠ NoticePersonalName ∧
    goSprintf NoticePersonalName ["Bob"] ≠ "Notice: Changed name to \"Bob\".\n" := by
  decide

/-! Shape lemmas computing the room-level operations under the usual
well-formedness hypotheses. -/

theorem updateA_updateA {α β : Type} [DecidableEq α] (l : List (α × β)) (k : α) (v v' : β) :
    updateA (updateA l k v) k v' = updateA l k v' := by
  induction l with
  | nil => simp [updateA]
  | cons hd t ih =>
      obtain ⟨a, b⟩ := hd
      by_cases hk : k = a <;> simp [updateA, hk, ih]

theorem setClientRoom_lookup_self (σ : LobbyState) (cid : ClientId) (o : Option String) :
    lookupA (setClientRoom σ cid o).clientOf cid =
      (lookupA σ.clientOf cid).map (fun c => { c with chatRoom := o }) := by
  unfold setClientRoom
  cases h : lookupA σ.clientOf cid <;> simp [h, lookupA_updateA_self]

theorem setClientRoom_lookup_ne (σ : LobbyState) (cid cid' : ClientId) (o : Option String)
    (h : cid' ≠ cid) :
    lookupA (setClientRoom σ cid o).clientOf cid' = lookupA σ.clientOf cid' := by
  unfold setClientRoom
  cases hc : lookupA σ.clientOf cid <;> simp [lookupA_updateA_ne _ _ _ _ h]

/-- `ChatRoom.Join` on an existing room and client, fully evaluated. -/
theorem chatRoomJoin_some (σ : LobbyState) (rname : String) (cid : ClientId) (now : Nat)
    (r : ChatRoom) (c : Client)
    (hr : lookupA σ.chatRooms rname = some r) (hc : lookupA σ.clientOf cid = some c) :
    chatRoomJoin σ rname cid now =
      ({ setClientRoom σ cid (some rname) with chatRooms := updateA σ.chatRooms rname { r with clients := r.clients ++ [cid], expiry := now + ExpiryTime, messages := r.messages ++ [goSprintf NoticeRoomJoin [c.name]] } },
       r.messages.map (fun m => (cid, m))
         ++ (r.clients ++ [cid]).map (fun x => (x, goSprintf NoticeRoomJoin [c.name]))) := by
  have h1 : lookupA (setClientRoom σ cid (some rname)).chatRooms rname = some r := by
    rw [setClientRoom_chatRooms]; exact hr
  have h2 : lookupA (setClientRoom σ cid (some rname)).clientOf cid =
      some { c with chatRoom := some rname } := by
    rw [setClientRoom_lookup_self, hc]; rfl
  unfold chatRoomJoin
  simp only [h1, h2]
  rw [chatRoomBroadcast_some _ _ _ _ { r with clients := r.clients ++ [cid] }
    (by simp [setClientRoom_chatRooms, lookupA_updateA_self])]
  simp [setClientRoom_chatRooms, updateA_updateA]

/-- `ChatRoom.Leave` on an existing room and client, fully evaluated. -/
theorem chatRoomLeave_some (σ : LobbyState) (rname : String) (cid : ClientId) (now : Nat)
    (r : ChatRoom) (c : Client)
    (hr : lookupA σ.chatRooms rname = some r) (hc : lookupA σ.clientOf cid = some c) :
    chatRoomLeave σ rname cid now =
      (setClientRoom ({ σ with chatRooms := updateA σ.chatRooms rname { r with clients := removeFirst r.clients cid, expiry := now + ExpiryTime, messages := r.messages ++ [goSprintf NoticeRoomLeave [c.name]] } }) cid none,
       r.clients.map (fun x => (x, goSprintf NoticeRoomLeave [c.name]))) := by
  unfold chatRoomLeave
  simp only [hc]
  rw [chatRoomBroadcast_some _ _ _ _ r hr]
  simp [lookupA_updateA_self, updateA_updateA]

/-- `ChatRoom.Delete` on an existing room, fully evaluated. -/
theorem chatRoomDelete_some (σ : LobbyState) (rname : String) (now : Nat) (r : ChatRoom)
    (hr : lookupA σ.chatRooms rname = some r) :
    chatRoomDelete σ rname now =
      (r.clients.foldl (fun s x => setClientRoom s x none)
        ({ σ with chatRooms := updateA σ.chatRooms rname { r with expiry := now + ExpiryTime, messages := r.messages ++ [NoticeRoomDelete] } }),
       r.clients.map (fun x => (x, NoticeRoomDelete))) := by
  unfold chatRoomDelete
  rw [chatRoomBroadcast_some _ _ _ _ r hr]
  simp [lookupA_updateA_self]

/-! ### C1 -/

/-- Later broadcasts each reach a client that is a member exactly once. -/
theorem broadcastMany_sentTo (rname : String) (cid : ClientId) :
    ∀ (ts : List (Nat × String)) (σ : LobbyState) (r : ChatRoom),
      lookupA σ.chatRooms rname = some r → countOcc r.clients cid = 1 →
      sentTo cid (broadcastMany σ rname ts).2 = ts.map Prod.snd := by
  intro ts
  induction ts with
  | nil => intro σ r hr hcnt; simp [broadcastMany, sentTo]
  | cons p rest ih =>
      intro σ r hr hcnt
      obtain ⟨n, t⟩ := p
      show sentTo cid (broadcastMany σ rname ((n, t) :: rest)).2 = _
      unfold broadcastMany
      rw [chatRoomBroadcast_some σ rname n t r hr]
      dsimp only
      rw [sentTo_append, sentTo_map_const, hcnt,
        ih _ { r with expiry := n + ExpiryTime, messages := r.messages ++ [t] }
          (by simp [lookupA_updateA_self]) hcnt]
      simp [List.replicate]

/-- C1: a client joining a room with history `r.messages` has queued on its
outbound channel exactly that history, in order, then the join notice for
this join, then (and only then) any broadcast emitted after the join. -/
theorem joinReplaysHistoryBeforeLiveTraffic (σ : LobbyState) (rname : String) (cid : ClientId)
    (r : ChatRoom) (c : Client) (now : Nat) (ts : List (Nat × String))
    (hr : lookupA σ.chatRooms rname = some r) (hc : lookupA σ.clientOf cid = some c)
    (hmem : cid ∉ r.clients) :
    sentTo cid ((chatRoomJoin σ rname cid now).2
        ++ (broadcastMany (chatRoomJoin σ rname cid now).1 rname ts).2)
      = r.messages ++ [goSprintf NoticeRoomJoin [c.name]] ++ ts.map Prod.snd := by
  rw [chatRoomJoin_some σ rname cid now r c hr hc]
  dsimp only
  rw [sentTo_append, sentTo_append, sentTo_map_self, sentTo_map_const,
    countOcc_append, countOcc_eq_zero_of_not_mem r.clients cid hmem,
    broadcastMany_sentTo rname cid ts _
      { r with clients := r.clients ++ [cid], expiry := now + ExpiryTime,
               messages := r.messages ++ [goSprintf NoticeRoomJoin [c.name]] }
      (by simp [lookupA_updateA_self])
      (by simp [countOcc_append, countOcc_eq_zero_of_not_mem r.clients cid hmem, countOcc])]
  simp [countOcc, List.replicate]

/-- Witness for C1: client 5 joins room "g" with history ["a", "b"]; one
broadcast "x" follows. -/
theorem joinReplaysHistoryBeforeLiveTrafficWitness :
    sentTo 5 ((chatRoomJoin c1State "g" 5 3).2
        ++ (broadcastMany (chatRoomJoin c1State "g" 5 3).1 "g" [(7, "x")]).2)
      = ["a", "b"] ++ [goSprintf NoticeRoomJoin ["Bob"]] ++ ["x"] :=
  joinReplaysHistoryBeforeLiveTraffic c1State "g" 5
    { name := "g", clients := [0], messages := ["a", "b"], expiry := 100 }
    { name := "Bob", chatRoom := none, connOpen := true, outgoingClosed := false }
    3 [(7, "x")] (by decide) (by decide) (by decide)

/-! ### C6 -/

theorem foldl_clearRoom_chatRooms (l : List ClientId) :
    ∀ σ : LobbyState, (l.foldl (fun s x => setClientRoom s x none) σ).chatRooms = σ.chatRooms := by
  induction l with
  | nil => intro σ; rfl
  | cons a t ih =>
      intro σ
      rw [List.foldl_cons, ih, setClientRoom_chatRooms]

theorem foldl_clearRoom_roster (l : List ClientId) :
    ∀ σ : LobbyState, (l.foldl (fun s x => setClientRoom s x none) σ).roster = σ.roster := by
  induction l with
  | nil => intro σ; rfl
  | cons a t ih =>
      intro σ
      rw [List.foldl_cons, ih, setClientRoom_roster]

theorem foldl_clearRoom_timers (l : List ClientId) :
    ∀ σ : LobbyState, (l.foldl (fun s x => setClientRoom s x none) σ).timers = σ.timers := by
  induction l with
  | nil => intro σ; rfl
  | cons a t ih =>
      intro σ
      rw [List.foldl_cons, ih, setClientRoom_timers]

/-- Clearing the room reference of every member of a list changes exactly
those clients' records, and only their `chatRoom` field. -/
theorem foldl_clearRoom_lookup (l : List ClientId) :
    ∀ (σ : LobbyState) (cid : ClientId),
      lookupA (l.foldl (fun s x => setClientRoom s x none) σ).clientOf cid =
        if cid ∈ l then (lookupA σ.clientOf cid).map (fun c => { c with chatRoom := none })
        else lookupA σ.clientOf cid := by
  induction l with
  | nil => intro σ cid; simp
  | cons a t ih =>
      intro σ cid
      rw [List.foldl_cons, ih]
      by_cases hat : cid ∈ t
      · rw [if_pos hat, if_pos (List.mem_cons_of_mem a hat)]
        by_cases hca : cid = a
        · subst hca
          rw [setClientRoom_lookup_self]
          cases lookupA σ.clientOf cid <;> rfl
        · rw [setClientRoom_lookup_ne _ _ _ _ hca]
      · rw [if_neg hat]
        by_cases hca : cid = a
        · subst hca
          rw [if_pos (List.mem_cons_self _ _), setClientRoom_lookup_self]
        · rw [if_neg (by simp [hca, hat]), setClientRoom_lookup_ne _ _ _ _ hca]

/-- C6: deleting a room via expiry broadcasts the deletion notice to exactly
the then-current members, clears each member's room reference (changing
nothing else in their records — in particular neither `connOpen` nor
`outgoingClosed`), removes the room's name from the directory, and leaves
every other directory entry, the roster and the timers unchanged. -/
theorem roomDeletionEffects (σ : LobbyState) (rname : String) (r : ChatRoom) (now : Nat)
    (hr : lookupA σ.chatRooms rname = some r) (hexp : r.expiry ≤ now)
    (hkeys : (σ.chatRooms.map Prod.fst).Nodup) :
    (lobbyDeleteChatRoom σ rname now).2 = r.clients.map (fun x => (x, NoticeRoomDelete)) ∧
    (∀ cid, lookupA (lobbyDeleteChatRoom σ rname now).1.clientOf cid =
      if cid ∈ r.clients then
        (lookupA σ.clientOf cid).map (fun c => { c with chatRoom := none })
      else lookupA σ.clientOf cid) ∧
    lookupA (lobbyDeleteChatRoom σ rname now).1.chatRooms rname = none ∧
    (∀ k, k ≠ rname →
      lookupA (lobbyDeleteChatRoom σ rname now).1.chatRooms k = lookupA σ.chatRooms k) ∧
    (lobbyDeleteChatRoom σ rname now).1.roster = σ.roster ∧
    (lobbyDeleteChatRoom σ rname now).1.timers = σ.timers := by
  have hnot : ¬ now < r.expiry := not_lt.mpr hexp
  have hD : lobbyDeleteChatRoom σ rname now =
      ({ (chatRoomDelete σ rname now).1 with
          chatRooms := removeA (chatRoomDelete σ rname now).1.chatRooms rname },
       (chatRoomDelete σ rname now).2) := by
    simp [lobbyDeleteChatRoom, hr, hnot]
  rw [hD, chatRoomDelete_some σ rname now r hr]
  dsimp only
  have hrooms :
      (r.clients.foldl (fun s x => setClientRoom s x none)
        ({ σ with chatRooms := updateA σ.chatRooms rname { r with expiry := now + ExpiryTime, messages := r.messages ++ [NoticeRoomDelete] } })).chatRooms
      = updateA σ.chatRooms rname { r with expiry := now + ExpiryTime, messages := r.messages ++ [NoticeRoomDelete] } := by
    rw [foldl_clearRoom_chatRooms]
  refine ⟨rfl, ?_, ?_, ?_, ?_, ?_⟩
  · intro cid
    rw [foldl_clearRoom_lookup]
  · rw [hrooms]
    apply lookupA_removeA_self
    rw [map_fst_updateA_of_lookup _ _ _ _ hr]
    exact hkeys
  · intro k hk
    rw [hrooms, lookupA_removeA_ne _ _ _ hk, lookupA_updateA_ne _ _ _ _ hk]
  · rw [foldl_clearRoom_roster]
  · rw [foldl_clearRoom_timers]

/-- Witness for C6: room "g" with members 0 and 1 expires at 10 and is
checked at 20. -/
theorem roomDeletionEffectsWitness :
    (lobbyDeleteChatRoom c6State "g" 20).2 = [(0, NoticeRoomDelete), (1, NoticeRoomDelete)] ∧
    lookupA (lobbyDeleteChatRoom c6State "g" 20).1.clientOf 0 =
      some { name := "Ann", chatRoom := none, connOpen := true, outgoingClosed := false } ∧
    lookupA (lobbyDeleteChatRoom c6State "g" 20).1.clientOf 2 =
      some { name := "Cid", chatRoom := none, connOpen := true, outgoingClosed := false } ∧
    lookupA (lobbyDeleteChatRoom c6State "g" 20).1.chatRooms "g" = none ∧
    (lobbyDeleteChatRoom c6State "g" 20).1.roster = c6State.roster := by
  have h := roomDeletionEffects c6State "g"
    { name := "g", clients := [0, 1], messages := ["m"], expiry := 10 } 20
    (by decide) (by decide) (by decide)
  refine ⟨?_, ?_, ?_, h.2.2.1, h.2.2.2.2.1⟩
  · rw [h.1]; rfl
  · rw [h.2.1 0]; rfl
  · rw [h.2.1 2]; rfl

/-! ### C10 -/

/-- C10: `/join` naming the room the client is already in makes the client
leave that room first — broadcasting a departure notice to the room (which
the client, still a member, also receives) and appending it to the history —
and then rejoin it: the entire history, now ending in that departure notice,
is replayed to the client before the fresh join notice.  Afterwards the
history ends with the departure and join notices and the client is back in
the room. -/
theorem rejoinSameRoomReplaysDeparture (σ : LobbyState) (rname : String) (cid : ClientId)
    (r : ChatRoom) (c : Client) (now : Nat)
    (hr : lookupA σ.chatRooms rname = some r) (hc : lookupA σ.clientOf cid = some c)
    (hin : c.chatRoom = some rname) (hcount : countOcc r.clients cid = 1) :
    sentTo cid (lobbyJoinChatRoom σ cid rname now).2 =
      [goSprintf NoticeRoomLeave [c.name]]
        ++ (r.messages ++ [goSprintf NoticeRoomLeave [c.name]])
        ++ [goSprintf NoticeRoomJoin [c.name]] ∧
    (lookupA (lobbyJoinChatRoom σ cid rname now).1.chatRooms rname).map ChatRoom.messages =
      some (r.messages
        ++ [goSprintf NoticeRoomLeave [c.name], goSprintf NoticeRoomJoin [c.name]]) ∧
    (lookupA (lobbyJoinChatRoom σ cid rname now).1.clientOf cid).map Client.chatRoom =
      some (some rname) := by
  have hleave : lobbyLeaveChatRoom σ cid now = chatRoomLeave σ rname cid now := by
    simp [lobbyLeaveChatRoom, hc, hin]
  have hJ : lobbyJoinChatRoom σ cid rname now =
      ((chatRoomJoin (chatRoomLeave σ rname cid now).1 rname cid now).1,
       (chatRoomLeave σ rname cid now).2
         ++ (chatRoomJoin (chatRoomLeave σ rname cid now).1 rname cid now).2) := by
    simp [lobbyJoinChatRoom, hr, hc, hin, hleave]
  rw [hJ, chatRoomLeave_some σ rname cid now r c hr hc]
  dsimp only
  rw [chatRoomJoin_some _ rname cid now
    { r with clients := removeFirst r.clients cid, expiry := now + ExpiryTime,
             messages := r.messages ++ [goSprintf NoticeRoomLeave [c.name]] }
    { c with chatRoom := none }
    (by rw [setClientRoom_chatRooms]; exact lookupA_updateA_self _ _ _)
    (by rw [setClientRoom_lookup_self]; dsimp only; rw [hc]; rfl)]
  refine ⟨?_, ?_, ?_⟩
  · dsimp only
    rw [sentTo_append, sentTo_append, sentTo_map_self, sentTo_map_const, sentTo_map_const,
      hcount, countOcc_append, countOcc_removeFirst, hcount]
    simp [countOcc, List.replicate]
  · dsimp only
    simp [lookupA_updateA_self]
  · dsimp only
    simp [setClientRoom_lookup_self, hc]

/-- Witness for C10: client 0 ("Ann"), a member of room "g" with history
["m1", "m2"], sends `/join g`. -/
theorem rejoinSameRoomReplaysDepartureWitness :
    sentTo 0 (lobbyJoinChatRoom c10State 0 "g" 9).2 =
      [goSprintf NoticeRoomLeave ["Ann"]]
        ++ (["m1", "m2"] ++ [goSprintf NoticeRoomLeave ["Ann"]])
        ++ [goSprintf NoticeRoomJoin ["Ann"]] ∧
    (lookupA (lobbyJoinChatRoom c10State 0 "g" 9).1.chatRooms "g").map ChatRoom.messages =
      some (["m1", "m2"]
        ++ [goSprintf NoticeRoomLeave ["Ann"], goSprintf NoticeRoomJoin ["Ann"]]) ∧
    (lookupA (lobbyJoinChatRoom c10State 0 "g" 9).1.clientOf 0).map Client.chatRoom =
      some (some "g") :=
  rejoinSameRoomReplaysDeparture c10State "g" 0
    { name := "g", clients := [0, 1], messages := ["m1", "m2"], expiry := 100 }
    { name := "Ann", chatRoom := some "g", connOpen := true, outgoingClosed := false }
    9 (by decide) (by decide) (by decide) (by decide)

/-! ### C9 -/

theorem goHasPre_append (p q : List Char) : goHasPre (p ++ q) p = true := by
  induction p with
  | nil => cases q <;> rfl
  | cons c cs ih => simp [goHasPre, ih]

theorem goHasPreS_append (p q : String) : goHasPreS (p ++ q) p = true := by
  show goHasPre (p.data ++ q.data) p.data = true
  exact goHasPre_append _ _

/-- Two lines whose second characters differ are not prefix-related. -/
theorem goHasPre_ne2 (a b a' b' : Char) (s p : List Char) (h : (b == b') = false) :
    goHasPre (a :: b :: s) (a' :: b' :: p) = false := by
  simp [goHasPre, h]

theorem drop_length_append {α : Type} (l₁ l₂ : List α) : (l₁ ++ l₂).drop l₁.length = l₂ := by
  induction l₁ with
  | nil => rfl
  | cons x xs ih => simp [ih]

theorem goTrimPreS_append (p q : String) : goTrimPreS (p ++ q) p = q := by
  unfold goTrimPreS
  rw [if_pos (goHasPreS_append p q)]
  show String.mk ((p.data ++ q.data).drop p.data.length) = q
  rw [drop_length_append]

theorem parsedCmd_create (nm : String) :
    parsedCmd ("/create " ++ nm) = Cmd.create (goTrimNl nm) := by
  have h1 : goHasPreS ("/create " ++ nm) CmdCreate = true := by
    show goHasPreS (CmdCreate ++ (" " ++ nm)) CmdCreate = true
    exact goHasPreS_append _ _
  have h2 : argAfter ("/create " ++ nm) CmdCreate = goTrimNl nm := by
    show goTrimNl (goTrimPreS ((CmdCreate ++ " ") ++ nm) (CmdCreate ++ " ")) = goTrimNl nm
    rw [goTrimPreS_append]
  unfold parsedCmd
  rw [if_pos h1, h2]

theorem parsedCmd_join (nm : String) :
    parsedCmd ("/join " ++ nm) = Cmd.join (goTrimNl nm) := by
  have hn1 : goHasPreS ("/join " ++ nm) CmdCreate = false :=
    goHasPre_ne2 '/' 'j' '/' 'c' _ _ rfl
  have hn2 : goHasPreS ("/join " ++ nm) CmdList = false :=
    goHasPre_ne2 '/' 'j' '/' 'l' _ _ rfl
  have h1 : goHasPreS ("/join " ++ nm) CmdJoin = true := by
    show goHasPreS (CmdJoin ++ (" " ++ nm)) CmdJoin = true
    exact goHasPreS_append _ _
  have h2 : argAfter ("/join " ++ nm) CmdJoin = goTrimNl nm := by
    show goTrimNl (goTrimPreS ((CmdJoin ++ " ") ++ nm) (CmdJoin ++ " ")) = goTrimNl nm
    rw [goTrimPreS_append]
  unfold parsedCmd
  rw [if_neg (by simp [hn1]), if_neg (by simp [hn2]), if_pos h1, h2]

theorem parsedCmd_name (nm : String) :
    parsedCmd ("/name " ++ nm) = Cmd.rename (goTrimNl nm) := by
  have hn1 : goHasPreS ("/name " ++ nm) CmdCreate = false :=
    goHasPre_ne2 '/' 'n' '/' 'c' _ _ rfl
  have hn2 : goHasPreS ("/name " ++ nm) CmdList = false :=
    goHasPre_ne2 '/' 'n' '/' 'l' _ _ rfl
  have hn3 : goHasPreS ("/name " ++ nm) CmdJoin = false :=
    goHasPre_ne2 '/' 'n' '/' 'j' _ _ rfl
  have hn4 : goHasPreS ("/name " ++ nm) CmdLeave = false :=
    goHasPre_ne2 '/' 'n' '/' 'l' _ _ rfl
  have h1 : goHasPreS ("/name " ++ nm) CmdName = true := by
    show goHasPreS (CmdName ++ (" " ++ nm)) CmdName = true
    exact goHasPreS_append _ _
  have h2 : argAfter ("/name " ++ nm) CmdName = goTrimNl nm := by
    show goTrimNl (goTrimPreS ((CmdName ++ " ") ++ nm) (CmdName ++ " ")) = goTrimNl nm
    rw [goTrimPreS_append]
  unfold parsedCmd
  rw [if_neg (by simp [hn1]), if_neg (by simp [hn2]), if_neg (by simp [hn3]),
    if_neg (by simp [hn4]), if_pos h1, h2]

/-- C9 counterexample: the line "/createfoo" is none of the seven grammar
forms (in particular not `/create <name>`: no space follows the command
word), so by the claim it would be chat content, making this roomless sender
receive the lobby error notice with no state change; the dispatcher instead
prefix-matches `/create` and creates a room literally named "/createfoo". -/
theorem dispatchGrammarCounterexample :
    (lobbyParse c8State ⟨"9:00AM", 0, "/createfoo"⟩ 0).2 ≠ [(0, ErrorSend)] ∧
    lookupA (lobbyParse c8State ⟨"9:00AM", 0, "/createfoo"⟩ 0).1.chatRooms "/createfoo"
      = some (newChatRoom "/createfoo" 0) ∧
    parsedCmd "/createfoo" = Cmd.create "/createfoo" := by
  decide

/-- C9 (amended): a line is dispatched as a command exactly when one of the
seven command words is a string prefix of it (checked case-sensitively, in
source order); the handler argument is the line with the command word plus
one space trimmed from the front when present — so a line of the grammar
form `/create <name>` (resp. `/join`, `/name`) yields exactly `<name>` — and
a trailing newline removed; every line starting with no command word is chat
content for the sender's current room. -/
theorem dispatchByPrefixAmended (σ : LobbyState) (m : Message) (now : Nat) :
    (lobbyParse σ m now =
      match parsedCmd m.text with
      | .create a => lobbyCreateChatRoom σ m.client a now
      | .list => lobbyListChatRooms σ m.client
      | .join a => lobbyJoinChatRoom σ m.client a now
      | .leave => lobbyLeaveChatRoom σ m.client now
      | .rename a => lobbyChangeName σ m.client a now
      | .help => lobbyHelp σ m.client
      | .quit => (lobbyQuit σ m.client, [])
      | .chat => lobbySendMessage σ m now) ∧
    (∀ nm, parsedCmd ("/create " ++ nm) = Cmd.create (goTrimNl nm)) ∧
    (∀ nm, parsedCmd ("/join " ++ nm) = Cmd.join (goTrimNl nm)) ∧
    (∀ nm, parsedCmd ("/name " ++ nm) = Cmd.rename (goTrimNl nm)) ∧
    parsedCmd "/help" = Cmd.help ∧
    parsedCmd "/list" = Cmd.list ∧
    parsedCmd "/leave" = Cmd.leave ∧
    parsedCmd "/quit" = Cmd.quit ∧
    (parsedCmd m.text = Cmd.chat ↔
      goHasPreS m.text CmdCreate = false ∧ goHasPreS m.text CmdList = false ∧
      goHasPreS m.text CmdJoin = false ∧ goHasPreS m.text CmdLeave = false ∧
      goHasPreS m.text CmdName = false ∧ goHasPreS m.text CmdHelp = false ∧
      goHasPreS m.text CmdQuit = false) := by
  refine ⟨?_, parsedCmd_create, parsedCmd_join, parsedCmd_name,
    by decide, by decide, by decide, by decide, ?_⟩
  · unfold lobbyParse parsedCmd argAfter
    split_ifs <;> rfl
  · unfold parsedCmd
    split_ifs with h1 h2 h3 h4 h5 h6 h7 <;> simp_all

/-- Witness for the amended C9: a plain line is chat content, a grammar-form
line routes to its handler with the bare name as argument. -/
theorem dispatchByPrefixAmendedWitness :
    lobbyParse c8State ⟨"9:00AM", 0, "hello"⟩ 0 =
      lobbySendMessage c8State ⟨"9:00AM", 0, "hello"⟩ 0 ∧
    parsedCmd ("/create " ++ "dev") = Cmd.create (goTrimNl "dev") := by
  have h := dispatchByPrefixAmended c8State ⟨"9:00AM", 0, "hello"⟩ 0
  have hp : parsedCmd "hello" = Cmd.chat := by decide
  refine ⟨?_, h.2.1 "dev"⟩
  rw [h.1, hp]

end ChatApp
